import Mathlib

/-!
Verification of the nl-opendata-mcp service layer (caches, translator,
HTTP fetch executor) against its natural-language specification.

The Python source is shallowly embedded: Python `dict[str, str]` becomes an
association list with insert-or-overwrite semantics matching dict assignment
(overwriting keeps the key's original position, as CPython dicts do); pandas
cells become an explicit `Cell` type distinguishing missing values (`NaN` /
`None`, for which `pd.notna` is false) from strings; wall-clock time is an
explicit `Nat` parameter (seconds); the filesystem and remote API are
explicit parameters threaded through the functions that touch them.
-/

namespace NlOpendata

/-- A Python `dict` with string keys, embedded as an association list holding
at most one binding per key. -/
abbrev PyDict (α : Type) := List (String × α)

/-- Python dict assignment `d[k] = v`: overwrite in place if the key is
present (keeping its position, as CPython dicts do), else append. -/
def dinsert {α : Type} (m : PyDict α) (k : String) (v : α) : PyDict α :=
  match m with
  | [] => [(k, v)]
  | (k', v') :: rest =>
      if k' = k then (k, v) :: rest else (k', v') :: dinsert rest k v

/-- Python `d.get(k)` (`some` iff `k in d`). -/
def mlookup {α : Type} (m : PyDict α) (k : String) : Option α :=
  match m with
  | [] => none
  | (k', v') :: rest => if k' = k then some v' else mlookup rest k

/-- A Python `dict[str, str]` (dimension Key → Title mapping). -/
abbrev Mapping := PyDict String

/-- Python `str.strip()` with no argument: remove leading and trailing
whitespace. Defined over the underlying character list so that concrete
instances reduce inside the kernel (Lean's `String.trim` is equivalent but
does not reduce there). -/
def pyStrip (s : String) : String :=
  ⟨((s.data.dropWhile Char.isWhitespace).reverse.dropWhile Char.isWhitespace).reverse⟩

/-- A pandas cell: either missing (NaN/None, `pd.notna` false) or a string
value. CBS dimension columns hold strings. -/
inductive Cell where
  | na : Cell
  | s (v : String) : Cell
deriving DecidableEq, Repr

/-- One item of a CBS dimension metadata response: the `Key` and `Title`
fields of a JSON record, `""` standing for an absent field
(`item.get("Key", "")`). -/
structure DimItem where
  key : String
  title : String
deriving DecidableEq, Repr

/-- `DimensionCache._fetch_dimension`'s mapping construction (translator.py
lines 119-129): for each item with nonempty `Key` and `Title`, store the
stripped key, and also the original key when it differs. -/
def buildMapping (items : List DimItem) : Mapping :=
  items.foldl
    (fun m item =>
      if item.key ≠ "" ∧ item.title ≠ "" then
        let m1 := dinsert m (pyStrip item.key) item.title
        if item.key ≠ (pyStrip item.key) then dinsert m1 item.key item.title else m1
      else m)
    []

/-- `DimensionCache._fetch_dimension` (translator.py lines 99-133): the HTTP
layer is abstracted as the outcome of `fetch_json(url, default={"value": []})`,
which is `none` when the fetch failed (so the default `{"value": []}` is used
and the mapping comes out empty) and `some items` on success. Any failure
yields the empty mapping. -/
def fetchDimension (outcome : Option (List DimItem)) : Mapping :=
  buildMapping (outcome.getD [])

/-- The per-cell translation applied by `translate_dataframe`
(translator.py lines 352-355):
`mapping.get(str(x).strip(), mapping.get(str(x), x)) if pd.notna(x) else x`. -/
def translateCell (mapping : Mapping) (x : Cell) : Cell :=
  match x with
  | .na => .na
  | .s v =>
      match mlookup mapping (pyStrip v) with
      | some title => .s title
      | none =>
          match mlookup mapping v with
          | some title => .s title
          | none => .s v

/-- `DimensionTranslator.translate_value` (translator.py lines 261-290):
`if not value or pd.isna(value): return value`, then try the stripped and
the original value against the mapping. An empty string is falsy in Python,
so it is returned before any lookup. -/
def translateValue (mapping : Mapping) (x : Cell) : Cell :=
  match x with
  | .na => .na
  | .s v =>
      if v = "" then .s v
      else
        match mlookup mapping (pyStrip v) with
        | some title => .s title
        | none =>
            match mlookup mapping v with
            | some title => .s title
            | none => .s v

/-- A pandas DataFrame of string-or-missing cells: an ordered list of
(column name, column values) pairs. -/
abbrev DataFrame := List (String × List Cell)

/-- `df.columns`. -/
def dfColumns (df : DataFrame) : List String := df.map Prod.fst

/-- Number of rows (length of the first column; columns are rectangular). -/
def dfRows (df : DataFrame) : Nat :=
  match df with
  | [] => 0
  | c :: _ => c.2.length

/-- pandas `df.empty`: true iff either axis has length 0. -/
def dfEmpty (df : DataFrame) : Bool := df.isEmpty || dfRows df == 0

/-- `translated_df[col] = translated_df[col].apply(...)`: rewrite the cells
of the column named `c` with `translateCell mapping`, leaving other columns
alone. -/
def applyCol (df : DataFrame) (c : String) (mapping : Mapping) : DataFrame :=
  match df with
  | [] => []
  | (name, vals) :: rest =>
      if name = c then (name, vals.map (translateCell mapping)) :: applyCol rest c mapping
      else (name, vals) :: applyCol rest c mapping

/-- The values of column `c` (`some` iff the column exists). -/
def colValues (df : DataFrame) (c : String) : Option (List Cell) := mlookup df c

/-- `DimensionTranslator.translate_dataframe` (translator.py lines 292-371).

The environment is abstracted as pure functions: `getMapping d` is the
mapping `DimensionCache.get_mapping(dataset_id, d)` returns (it always
returns a dict — `_fetch_dimension` catches its own failures and returns
`{}`), `availableDims` is the result of `get_available_dimensions`, and
`columnTitles` the result of `get_column_titles`.

Faithful points to note:
* tasks (hence gathered results, in task order) are created only for the
  names of `dimension_columns` that are columns of the DataFrame, but the
  results are then paired with `zip(dimension_columns, results)` — the
  unfiltered list;
* the `mappings` dict is built by repeated assignment, then iterated in
  insertion order;
* a column is rewritten only if it exists and its mapping is non-empty;
* `skip_columns` (default `['Perioden']`) is consulted only in the
  auto-detect branch (`dimension_columns is None`). -/
def translateDataframe
    (getMapping : String → Mapping)
    (availableDims : List String)
    (columnTitles : PyDict String)
    (df : DataFrame)
    (dimensionColumns : Option (List String))
    (translateColumnNames : Bool)
    (skipColumns : Option (List String)) : DataFrame :=
  if dfEmpty df then df
  else
    let skip := skipColumns.getD ["Perioden"]
    let dims : List String :=
      match dimensionColumns with
      | some l => l
      | none =>
          (dfColumns df).filter (fun c => availableDims.contains c && !(skip.contains c))
    let tdf := df
    let tdf :=
      if dims.isEmpty then tdf
      else
        let cols := dims.filter (fun c => (dfColumns tdf).contains c)
        let results := cols.map getMapping
        let pairs := dims.zip results
        let mappings := pairs.foldl (fun acc p => dinsert acc p.1 p.2) []
        mappings.foldl
          (fun d p =>
            if (dfColumns d).contains p.1 && !p.2.isEmpty then applyCol d p.1 p.2 else d)
          tdf
    if translateColumnNames then
      let renameMap := (dfColumns tdf).foldl
        (fun acc c =>
          match mlookup columnTitles c with
          | some t => dinsert acc c t
          | none => acc)
        []
      if renameMap.isEmpty then tdf
      else tdf.map (fun p => ((mlookup renameMap p.1).getD p.1, p.2))
    else tdf

/-! ## Dimension Mapping Cache (translator.py, `DimensionCache`) — sequential view

Wall-clock `time.time()` is an explicit `Nat` parameter (seconds, monotone:
callers only pass times at or after any stored timestamp, so `Nat`
subtraction agrees with the float subtraction of the source). -/

/-- `cache_key = f"{dataset_id}:{dimension_name}"`. -/
def cacheKey (datasetId dimensionName : String) : String :=
  datasetId ++ ":" ++ dimensionName

/-- The two dicts of `DimensionCache` plus its TTL (`__init__`,
translator.py lines 46-56). -/
structure DimCacheState where
  cache : PyDict Mapping
  timestamps : PyDict Nat
  ttl : Nat
deriving DecidableEq, Repr

/-- `DimensionCache._is_valid` (translator.py lines 58-65): the key is in
both dicts and its age is strictly below the TTL. -/
def dimIsValid (st : DimCacheState) (now : Nat) (key : String) : Bool :=
  match mlookup st.cache key with
  | none => false
  | some _ =>
      match mlookup st.timestamps key with
      | none => false
      | some t => now - t < st.ttl

/-- `DimensionCache.get_mapping` (translator.py lines 67-97), sequential
view (a single caller, so the lock and its double-check collapse into one
validity test; the interleaved behaviour is modelled separately by
`sfStep`/`sfRun` below). Returns the mapping, the updated cache state, and
whether a remote fetch was performed. `outcome` is the remote result used
if a fetch happens (`none` = the fetch failed). -/
def dimGetMapping (st : DimCacheState) (now : Nat) (datasetId dimensionName : String)
    (outcome : Option (List DimItem)) : Mapping × DimCacheState × Bool :=
  let key := cacheKey datasetId dimensionName
  if dimIsValid st now key then
    ((mlookup st.cache key).getD [], st, false)
  else
    let m := fetchDimension outcome
    (m,
     { st with cache := dinsert st.cache key m,
               timestamps := dinsert st.timestamps key now },
     true)

/-- `DimensionCache.clear` (translator.py lines 135-139). -/
def dimClear (st : DimCacheState) : DimCacheState :=
  { st with cache := [], timestamps := [] }

/-! ## Dimension Mapping Cache — concurrent single-flight machine

`get_mapping` under asyncio's cooperative scheduler: code between `await`
points runs atomically. For one key, each concurrent caller is a small state
machine:

* `start`  — about to run the unlocked fast-path validity check;
* `waitLock` — the fast path missed; waiting on `async with self._lock`
  (acquiring the lock runs the double-check atomically: either it hits and
  the caller returns, releasing the lock, or the caller reaches the
  `await self._fetch_dimension(...)` holding the lock);
* `fetching` — holding the lock, awaiting the remote fetch; completion
  stores the mapping with a fresh timestamp, releases the lock, returns;
* `done r` — returned with mapping `r`.

The shared state carries the cache entry for the key under test, the lock
bit, and a fetch counter. `fetched` is the remote's (deterministic) answer;
the wall clock `now` is held fixed across the race. -/

/-- Program counter of one concurrent `get_mapping` caller. -/
inductive PC where
  | start : PC
  | waitLock : PC
  | fetching : PC
  | done (r : Mapping) : PC
deriving DecidableEq, Repr

/-- `PC.done _`? -/
def PC.isDone : PC → Bool
  | .done _ => true
  | _ => false

/-- Shared state of the single-flight race for one key. -/
structure SfState where
  entry : Option (Mapping × Nat)
  lockHeld : Bool
  fetchCount : Nat
  tasks : List PC
deriving DecidableEq, Repr

/-- `_is_valid` for the tracked key: an entry exists and is younger than the
TTL. -/
def entryValid (now ttl : Nat) : Option (Mapping × Nat) → Bool
  | none => false
  | some (_, t) => now - t < ttl

/-- `self._cache[cache_key]` for the tracked key. -/
def entryVal : Option (Mapping × Nat) → Mapping
  | none => []
  | some (m, _) => m

/-- One scheduler step: run task `i` from its current `await` point to its
next one (or to completion), per `get_mapping` (translator.py lines 82-97).
A task waiting on a held lock, a finished task, or an out-of-range index
leaves the state unchanged. -/
def sfStep (fetched : Mapping) (now ttl : Nat) (s : SfState) (i : Nat) : SfState :=
  match s.tasks[i]? with
  | none => s
  | some .start =>
      if entryValid now ttl s.entry then
        { s with tasks := s.tasks.set i (.done (entryVal s.entry)) }
      else
        { s with tasks := s.tasks.set i .waitLock }
  | some .waitLock =>
      if s.lockHeld then s
      else if entryValid now ttl s.entry then
        { s with tasks := s.tasks.set i (.done (entryVal s.entry)) }
      else
        { s with lockHeld := true, tasks := s.tasks.set i .fetching }
  | some .fetching =>
      { s with entry := some (fetched, now), lockHeld := false,
               fetchCount := s.fetchCount + 1,
               tasks := s.tasks.set i (.done fetched) }
  | some (.done _) => s

/-- Run a schedule (a list of task indices, the interleaving chosen by the
event loop). -/
def sfRun (fetched : Mapping) (now ttl : Nat) (s : SfState) (sched : List Nat) : SfState :=
  sched.foldl (sfStep fetched now ttl) s

/-! ## Fetch executor (http_client.py, `fetch_with_retry`) -/

/-- Outcome of one `client.get(url)` attempt: a response with a status code,
or one of the two network exceptions the loop catches
(`httpx.TimeoutException`, `httpx.ConnectError`). -/
inductive HttpOutcome where
  | resp (code : Nat) : HttpOutcome
  | netErr : HttpOutcome
deriving DecidableEq, Repr

/-- Final outcome of `fetch_with_retry`, tagged with the number of GET
attempts performed: the returned response, a raised `HTTPStatusError`
(from `raise_for_status`), or a re-raised network error. -/
inductive FetchResult where
  | ok (code : Nat) (attempts : Nat) : FetchResult
  | httpError (code : Nat) (attempts : Nat) : FetchResult
  | netFail (attempts : Nat) : FetchResult
deriving DecidableEq, Repr

/-- Number of GET attempts the run performed. -/
def FetchResult.attempts : FetchResult → Nat
  | .ok _ a => a
  | .httpError _ a => a
  | .netFail a => a

/-- httpx `response.is_success` (2xx); `raise_for_status` raises for
anything else. -/
def isSuccess (code : Nat) : Bool := 200 ≤ code && code < 300

/-- The attempt loop of `fetch_with_retry` (http_client.py lines 162-195).
`responses a` is what attempt `a`'s GET yields; `remaining` counts the
retries still allowed (`remaining = max_retries - attempt`, so
`attempt < max_retries` iff `remaining > 0`). Backoff sleeps do not affect
the result and are elided. -/
def fetchLoop (responses : Nat → HttpOutcome) (retryOn : List Nat) (attempt : Nat) :
    Nat → FetchResult
  | 0 =>
      -- final attempt: `attempt < max_retries` is false, so a retryable
      -- status falls through to `raise_for_status`, and a network error
      -- is re-raised
      match responses attempt with
      | .resp code =>
          if isSuccess code then .ok code (attempt + 1)
          else .httpError code (attempt + 1)
      | .netErr => .netFail (attempt + 1)
  | r + 1 =>
      match responses attempt with
      | .resp code =>
          if retryOn.contains code then fetchLoop responses retryOn (attempt + 1) r
          else if isSuccess code then .ok code (attempt + 1)
          else .httpError code (attempt + 1)
      | .netErr => fetchLoop responses retryOn (attempt + 1) r

/-- `fetch_with_retry(url, max_retries, retry_on_status)` (http_client.py
lines 133-195). `retry_on_status = retry_on_status or {429, 500, 502, 503,
504}`: Python `or` replaces both `None` and an empty set by the default. -/
def fetchWithRetry (responses : Nat → HttpOutcome) (maxRetries : Nat)
    (retryOn : Option (List Nat)) : FetchResult :=
  let ro :=
    match retryOn with
    | none => [429, 500, 502, 503, 504]
    | some l => if l.isEmpty then [429, 500, 502, 503, 504] else l
  fetchLoop responses ro 0 maxRetries

/-! ## Backoff (http_client.py, `_calculate_backoff`)

The source computes over floats; the embedding uses `ℚ`. `retryAfter` is the
parsed `Retry-After` header (`none` when the header is absent or fails to
parse as a float, in which case the code falls through to exponential
backoff). `u` stands for `random.random()`, a value in `[0, 1)`. -/

/-- `_calculate_backoff` (http_client.py lines 198-232). -/
def calculateBackoff (retryAfter : Option ℚ) (minWait maxWait : ℚ) (attempt : Nat)
    (u : ℚ) : ℚ :=
  match retryAfter with
  | some ra => min ra maxWait
  | none =>
      let backoff := minWait * 2 ^ attempt
      let jitter := backoff * (1 / 4) * u
      min (backoff + jitter) maxWait

/-! ## `fetch_json` (http_client.py lines 251-269) -/

/-- `fetch_json(url, default)`: `result` is the combined outcome of
`fetch_with_retry(url)` followed by `response.json()` (an `error` if either
raised); `default` is the caller's default, Python `None` being `none`. On
failure the default is returned only when it is not `None`; otherwise the
exception is re-raised. -/
def fetchJson {α : Type} (result : Except String α) (default : Option α) :
    Except String α :=
  match result with
  | .ok v => .ok v
  | .error e =>
      match default with
      | some d => .ok d
      | none => .error e

/-! ## Artifact (Dataset) Cache (cache.py, `DatasetCache`)

The artifact filesystem is an explicit list `fs` of existing paths
(`os.path.exists`); the cache's own JSON file is an explicit
`Option (PyDict DsEntry)` value (`none` when it does not exist, or when
reading/parsing it fails — both make `_load_from_disk` return without
touching the state). `_save_to_disk` returns the new on-disk value. -/

/-- One entry of the dataset cache (`DatasetCache.set`, cache.py lines
274-278). -/
structure DsEntry where
  datasetId : String
  records : Nat
  timestamp : Nat
deriving DecidableEq, Repr

/-- In-memory state of `DatasetCache`. -/
structure DatasetCacheState where
  data : PyDict DsEntry
  loaded : Bool
deriving DecidableEq, Repr

/-- Python `del d[k]`. -/
def ddelete {α : Type} (m : PyDict α) (k : String) : PyDict α :=
  m.filter (fun p => !(p.1 == k))

/-- `DatasetCache._load_from_disk` (cache.py lines 237-250): on a missing or
unreadable file the state is unchanged (and `_loaded` stays false). -/
def dsLoad (c : DatasetCacheState) (disk : Option (PyDict DsEntry)) :
    DatasetCacheState :=
  match disk with
  | none => c
  | some d => { data := d, loaded := true }

/-- The state `get`/`remove`/`exists` actually consult: load first when not
yet loaded. -/
def dsEffective (c : DatasetCacheState) (disk : Option (PyDict DsEntry)) :
    DatasetCacheState :=
  if c.loaded then c else dsLoad c disk

/-- `DatasetCache.get` (cache.py lines 263-267). -/
def dsGet (c : DatasetCacheState) (disk : Option (PyDict DsEntry)) (path : String) :
    Option DsEntry × DatasetCacheState :=
  let c1 := dsEffective c disk
  (mlookup c1.data path, c1)

/-- `DatasetCache.remove` (cache.py lines 281-288): delete the entry if
present and persist. Returns the new state and the new on-disk file. -/
def dsRemove (c : DatasetCacheState) (disk : Option (PyDict DsEntry)) (path : String) :
    DatasetCacheState × Option (PyDict DsEntry) :=
  let c1 := dsEffective c disk
  match mlookup c1.data path with
  | some _ =>
      let c2 := { c1 with data := ddelete c1.data path }
      (c2, some c2.data)
  | none => (c1, disk)

/-- `DatasetCache.exists` (cache.py lines 290-298): true only when the entry
is recorded and its file exists; a recorded entry whose file is gone is
pruned as a side effect. -/
def dsExists (c : DatasetCacheState) (disk : Option (PyDict DsEntry))
    (fs : List String) (path : String) :
    Bool × DatasetCacheState × Option (PyDict DsEntry) :=
  let (entry, c1) := dsGet c disk path
  match entry with
  | some _ =>
      if fs.contains path then (true, c1, disk)
      else
        let (c2, disk2) := dsRemove c1 disk path
        (false, c2, disk2)
  | none => (false, c1, disk)

/-! ## TTL Entity Cache (cache.py, `CatalogCache`)

Catalog items are opaque payloads to the cache (`Any` in the source);
embedded as strings. ISO timestamps are seconds (`Nat`); the legacy-format
age check `(now - st_mtime) / 3600 > ttl_hours` is embedded multiplied out
as `now - mtime > ttl_hours * 3600`, which agrees with the float comparison
whenever `now ≥ mtime`. -/

/-- An opaque catalog item payload. -/
abbrev CatItem := String

/-- The metadata record of the envelope format; only `expires_at` is
consulted by `_load_from_disk` (`metadata.get('expires_at')`, `none` when
the field is absent). -/
structure CatMeta where
  expiresAt : Option Nat
deriving DecidableEq, Repr

/-- What `json.load` on the catalog cache file yields: the
`{'data': …, 'metadata': …}` envelope (with possibly-absent metadata), the
legacy bare list, or content whose parse raises (`corrupt`). -/
inductive CatDiskContent where
  | envelope (data : List CatItem) (metadata : Option CatMeta) : CatDiskContent
  | legacy (data : List CatItem) : CatDiskContent
  | corrupt : CatDiskContent
deriving DecidableEq, Repr

/-- The on-disk catalog cache file: its content (`none` = file absent) and
its `st_mtime`. -/
structure CatDisk where
  content : Option CatDiskContent
  mtime : Nat
deriving DecidableEq, Repr

/-- In-memory state of `CatalogCache` (`__init__`, cache.py lines 84-93). -/
structure CatalogCacheState where
  data : List CatItem
  metadata : Option CatMeta
  loaded : Bool
  ttlHours : Nat
deriving DecidableEq, Repr

/-- `CatalogCache._load_from_disk` (cache.py lines 95-133). Note the source
assigns `self._data` (and `self._metadata`) *before* the expiry checks, so
a load that then turns out expired returns `False` with the stale data
already sitting in `_data` and `_loaded` still false. A corrupt file raises
inside `json.load`, is caught, and leaves the state unchanged. -/
def catLoadFromDisk (c : CatalogCacheState) (disk : CatDisk) (now : Nat) :
    CatalogCacheState × Bool :=
  match disk.content with
  | none => (c, false)
  | some .corrupt => (c, false)
  | some (.envelope d meta) =>
      let c1 := { c with data := d, metadata := some (meta.getD ⟨none⟩) }
      match (meta.getD ⟨none⟩).expiresAt with
      | some exp =>
          if now > exp then (c1, false)
          else ({ c1 with loaded := true }, true)
      | none => ({ c1 with loaded := true }, true)
  | some (.legacy d) =>
      let c1 := { c with data := d, metadata := none }
      if now - disk.mtime > c.ttlHours * 3600 then (c1, false)
      else ({ c1 with loaded := true }, true)

/-- The `data` property getter (cache.py lines 155-160): load lazily, then
return `self._data` — whatever the load left there. -/
def catData (c : CatalogCacheState) (disk : CatDisk) (now : Nat) :
    List CatItem × CatalogCacheState :=
  if c.loaded then (c.data, c)
  else
    let c1 := (catLoadFromDisk c disk now).1
    (c1.data, c1)

/-- The `data` property setter (cache.py lines 162-167) together with
`_save_to_disk` (lines 135-153): replace the data wholesale, mark loaded,
and persist a fresh envelope whose metadata expires at `now + ttl`. -/
def catSetData (c : CatalogCacheState) (v : List CatItem) (now : Nat) :
    CatalogCacheState × CatDisk :=
  let c1 := { c with data := v, loaded := true }
  (c1, ⟨some (.envelope v (some ⟨some (now + c.ttlHours * 3600)⟩)), now⟩)

/-! ## Helper lemmas and claim theorems -/

/-- The attempt loop performs at most `remaining + 1` further GETs. -/
theorem fetchLoop_attempts_le (responses : Nat → HttpOutcome) (retryOn : List Nat) :
    ∀ r a, (fetchLoop responses retryOn a r).attempts ≤ a + r + 1 := by
  intro r
  induction r with
  | zero =>
      intro a
      cases h : responses a with
      | resp code =>
          by_cases h2 : isSuccess code = true <;>
            simp [fetchLoop, h, h2, FetchResult.attempts]
      | netErr => simp [fetchLoop, h, FetchResult.attempts]
  | succ r ih =>
      intro a
      cases h : responses a with
      | resp code =>
          by_cases h1 : retryOn.contains code = true
          · have := ih (a + 1)
            simp only [fetchLoop, h, h1, if_true]
            omega
          · have hmem : code ∉ retryOn := by simpa using h1
            by_cases h2 : isSuccess code = true <;>
              simp [fetchLoop, h, hmem, h2, FetchResult.attempts]
      | netErr =>
          have := ih (a + 1)
          simp only [fetchLoop, h]
          omega

/-- C6: `fetch_with_retry(url, max_retries, retry_on_status)` performs at
most `max_retries + 1` GET attempts (both with the default retryable set and
with a caller-supplied one); a response whose status is an error class but
not in the retryable set fails immediately with an HTTP status error and no
further attempt (whatever attempt it occurs on and however many retries
remain); a retryable status received on the final attempt (no retries
remaining) likewise fails with an HTTP status error rather than retrying;
and the default retryable set is {429, 500, 502, 503, 504}. -/
theorem fetch_with_retry_attempt_policy (responses : Nat → HttpOutcome)
    (maxRetries : Nat) (retryOn : List Nat) :
    (fetchWithRetry responses maxRetries none).attempts ≤ maxRetries + 1
    ∧ (fetchLoop responses retryOn 0 maxRetries).attempts ≤ maxRetries + 1
    ∧ (∀ a r code, responses a = .resp code → isSuccess code = false →
         retryOn.contains code = false →
         fetchLoop responses retryOn a r = .httpError code (a + 1))
    ∧ (∀ a code, responses a = .resp code → isSuccess code = false →
         fetchLoop responses retryOn a 0 = .httpError code (a + 1))
    ∧ fetchWithRetry responses maxRetries none
        = fetchLoop responses [429, 500, 502, 503, 504] 0 maxRetries := by
  refine ⟨?_, ?_, ?_, ?_, rfl⟩
  · have := fetchLoop_attempts_le responses [429, 500, 502, 503, 504] maxRetries 0
    simpa [fetchWithRetry] using this
  · have := fetchLoop_attempts_le responses retryOn maxRetries 0
    simpa using this
  · intro a r code hresp hsucc hretry
    have hmem : code ∉ retryOn := by simpa using hretry
    cases r with
    | zero => simp [fetchLoop, hresp, hsucc]
    | succ r => simp [fetchLoop, hresp, hsucc, hmem]
  · intro a code hresp hsucc
    simp [fetchLoop, hresp, hsucc]

/-- Witness for `fetch_with_retry_attempt_policy`: a 404 (error class, not
retryable) on the first of up to three attempts fails immediately after a
single GET. -/
theorem fetch_with_retry_attempt_policy_witness :
    fetchLoop (fun _ => .resp 404) [429] 0 2 = .httpError 404 1 :=
  (fetch_with_retry_attempt_policy (fun _ => .resp 404) 2 [429]).2.2.1 0 2 404 rfl
    (by decide) (by decide)

/-- C7: the computed backoff never exceeds the configured maximum wait (with
or without a `Retry-After` header); with a parseable `Retry-After` header it
is exactly `min(header, max wait)`; and for any fixed jitter draw
`u ∈ [0, 1)` the backoff is non-decreasing in the attempt number (pointwise
in `u`, hence also in expectation over `u`), up to that cap. -/
theorem calculate_backoff_bounds (retryAfter : Option ℚ) (minWait maxWait u : ℚ)
    (attempt : Nat) :
    calculateBackoff retryAfter minWait maxWait attempt u ≤ maxWait
    ∧ (∀ ra, calculateBackoff (some ra) minWait maxWait attempt u = min ra maxWait)
    ∧ (0 ≤ minWait → 0 ≤ u →
        calculateBackoff none minWait maxWait attempt u
          ≤ calculateBackoff none minWait maxWait (attempt + 1) u) := by
  refine ⟨?_, fun ra => rfl, ?_⟩
  · cases retryAfter <;> simp [calculateBackoff]
  · intro hmin hu
    simp only [calculateBackoff]
    apply min_le_min _ le_rfl
    have hb : (0 : ℚ) ≤ minWait * 2 ^ attempt := by positivity
    have h2 : minWait * 2 ^ attempt ≤ minWait * 2 ^ (attempt + 1) := by
      apply mul_le_mul_of_nonneg_left _ hmin
      exact pow_le_pow_right₀ (by norm_num) (Nat.le_succ attempt)
    nlinarith

/-- Witness for `calculate_backoff_bounds` at `min_wait = 1`,
`max_wait = 10`, jitter draw `1/2`, attempts 2 and 3. -/
theorem calculate_backoff_bounds_witness :
    (0 : ℚ) ≤ 1
    ∧ calculateBackoff none 1 10 2 (1 / 2) ≤ calculateBackoff none 1 10 3 (1 / 2) :=
  ⟨by norm_num,
   (calculate_backoff_bounds none 1 10 (1 / 2) 2).2.2 (by norm_num) (by norm_num)⟩

/-- C8 counterexample: with the default `default=None` — itself a
caller-suppliable value — a fetch failure is re-raised, not returned as the
default; so "for every caller-supplied default value the default is
returned on failure" is false at `default = None`. -/
theorem fetch_json_none_default_counterexample :
    fetchJson (Except.error "connection failed" : Except String Nat) none
      = Except.error "connection failed" := rfl

/-- C8 amended: if fetching or JSON-parsing fails, `fetch_json` returns the
caller-supplied default provided that default is not `None`; on success the
parsed body is returned regardless; with `default = None` the error
propagates. -/
theorem fetch_json_default_behaviour {α : Type} (e : String) (d v : α) :
    fetchJson (Except.error e) (some d) = Except.ok d
    ∧ fetchJson (Except.ok v) (some d) = Except.ok v
    ∧ fetchJson (Except.error e : Except String α) none = Except.error e :=
  ⟨rfl, rfl, rfl⟩

/-- Looking up the key just assigned yields the assigned value. -/
theorem mlookup_dinsert_self {α : Type} (m : PyDict α) (k : String) (v : α) :
    mlookup (dinsert m k v) k = some v := by
  induction m with
  | nil => simp [dinsert, mlookup]
  | cons p rest ih =>
      obtain ⟨k', v'⟩ := p
      by_cases h : k' = k <;> simp [dinsert, mlookup, h, ih]

/-- Looking up a key just deleted yields nothing. -/
theorem mlookup_ddelete_self {α : Type} (m : PyDict α) (k : String) :
    mlookup (ddelete m k) k = none := by
  induction m with
  | nil => rfl
  | cons p rest ih =>
      obtain ⟨k', v'⟩ := p
      by_cases h : k' = k <;> simp [ddelete, mlookup, h] at ih ⊢ <;>
        simpa [ddelete] using ih

/-- C3 amended: a missing (NA) cell always stays missing; a non-missing cell
whose stripped form is a mapping key becomes that key's label, else its
unstripped form is tried, else the cell passes through unchanged;
`translate_value` returns an empty string unchanged unconditionally, and the
per-cell function of `translate_dataframe` returns it unchanged provided
the empty string is not itself a mapping key; and on the concrete mapping
{"1100": "Mannen", "1200": "Vrouwen"} the column ["1100","1200","9999"]
translates to ["Mannen","Vrouwen","9999"]. -/
theorem translate_cell_semantics (m : Mapping) (v t : String) :
    translateCell m .na = .na
    ∧ (mlookup m (pyStrip v) = some t → translateCell m (.s v) = .s t)
    ∧ (mlookup m (pyStrip v) = none → mlookup m v = some t →
        translateCell m (.s v) = .s t)
    ∧ (mlookup m (pyStrip v) = none → mlookup m v = none →
        translateCell m (.s v) = .s v)
    ∧ translateValue m (.s "") = .s ""
    ∧ (mlookup m "" = none → translateCell m (.s "") = .s "")
    ∧ (["1100", "1200", "9999"].map
        (fun w => translateCell [("1100", "Mannen"), ("1200", "Vrouwen")] (.s w))
       = [.s "Mannen", .s "Vrouwen", .s "9999"]) := by
  have hstrip : pyStrip "" = "" := rfl
  refine ⟨rfl, ?_, ?_, ?_, by simp [translateValue], ?_, by decide⟩
  · intro h; simp [translateCell, h]
  · intro h1 h2; simp [translateCell, h1, h2]
  · intro h1 h2; simp [translateCell, h1, h2]
  · intro h; simp [translateCell, hstrip, h]

/-- C3 counterexample: the claim's "a missing/empty cell remains
missing/empty" fails for the per-cell function of `translate_dataframe` on
an empty-string cell when the mapping contains the empty string as a key —
which the code's own mapping constructor produces from a whitespace-only
remote key (here `Key = "  "`, `Title = "X"`): the empty cell becomes
`"X"`. -/
theorem translate_cell_empty_string_counterexample :
    translateCell (buildMapping [⟨"  ", "X"⟩]) (.s "") = .s "X" := by decide

/-- Witness for `translate_cell_semantics`: a padded value `" 1100 "` is
translated through its stripped form. -/
theorem translate_cell_semantics_witness :
    translateCell [("1100", "Mannen")] (.s " 1100 ") = .s "Mannen" :=
  (translate_cell_semantics [("1100", "Mannen")] " 1100 " "Mannen").2.1 (by decide)

/-- C10: when the remote fetch for a key fails (`outcome = none`), the empty
mapping is stored under that key with a fresh timestamp; for the full TTL
window after the failure every `get_mapping` call for the key returns the
empty mapping without fetching; once the TTL has elapsed, or after
`clear()`, the next call fetches again. -/
theorem dimension_cache_negative_caching (st : DimCacheState) (t0 : Nat)
    (dsId dim : String)
    (h0 : dimIsValid st t0 (cacheKey dsId dim) = false) :
    (dimGetMapping st t0 dsId dim none).1 = []
    ∧ (dimGetMapping st t0 dsId dim none).2.2 = true
    ∧ (∀ (t : Nat) (outcome : Option (List DimItem)),
        t - t0 < st.ttl →
        dimGetMapping (dimGetMapping st t0 dsId dim none).2.1 t dsId dim outcome
          = ([], (dimGetMapping st t0 dsId dim none).2.1, false))
    ∧ (∀ (t : Nat) (outcome : Option (List DimItem)),
        st.ttl ≤ t - t0 →
        (dimGetMapping (dimGetMapping st t0 dsId dim none).2.1 t dsId dim outcome).2.2
          = true)
    ∧ (∀ (t : Nat) (outcome : Option (List DimItem)),
        (dimGetMapping (dimClear (dimGetMapping st t0 dsId dim none).2.1)
            t dsId dim outcome).2.2 = true) := by
  have hfetch : fetchDimension none = [] := rfl
  refine ⟨by simp [dimGetMapping, h0, hfetch], by simp [dimGetMapping, h0], ?_, ?_, ?_⟩
  · intro t outcome ht
    have hst1 : (dimGetMapping st t0 dsId dim none).2.1
        = { st with cache := dinsert st.cache (cacheKey dsId dim) [],
                    timestamps := dinsert st.timestamps (cacheKey dsId dim) t0 } := by
      simp [dimGetMapping, h0, hfetch]
    rw [hst1]
    have hvalid : dimIsValid
        { st with cache := dinsert st.cache (cacheKey dsId dim) ([] : Mapping),
                  timestamps := dinsert st.timestamps (cacheKey dsId dim) t0 }
        t (cacheKey dsId dim) = true := by
      simp [dimIsValid, mlookup_dinsert_self, ht]
    simp [dimGetMapping, hvalid, mlookup_dinsert_self]
  · intro t outcome ht
    have hst1 : (dimGetMapping st t0 dsId dim none).2.1
        = { st with cache := dinsert st.cache (cacheKey dsId dim) [],
                    timestamps := dinsert st.timestamps (cacheKey dsId dim) t0 } := by
      simp [dimGetMapping, h0, hfetch]
    rw [hst1]
    have hvalid : dimIsValid
        { st with cache := dinsert st.cache (cacheKey dsId dim) ([] : Mapping),
                  timestamps := dinsert st.timestamps (cacheKey dsId dim) t0 }
        t (cacheKey dsId dim) = false := by
      simp [dimIsValid, mlookup_dinsert_self]
      omega
    simp [dimGetMapping, hvalid]
  · intro t outcome
    set st1 := (dimGetMapping st t0 dsId dim none).2.1 with hst1
    have hvalid : dimIsValid (dimClear st1) t (cacheKey dsId dim) = false := by
      simp [dimIsValid, dimClear, mlookup]
    simp [dimGetMapping, hvalid]

/-- Witness for `dimension_cache_negative_caching`: after a failed fetch at
t=1000 with TTL 3600, a call at t=2000 returns the cached empty mapping with
no fetch, even though the remote would now answer. -/
theorem dimension_cache_negative_caching_witness :
    dimGetMapping (dimGetMapping ⟨[], [], 3600⟩ 1000 "84826NED" "Geslacht" none).2.1
        2000 "84826NED" "Geslacht" (some [⟨"1100", "Mannen"⟩])
      = ([], (dimGetMapping ⟨[], [], 3600⟩ 1000 "84826NED" "Geslacht" none).2.1, false) :=
  (dimension_cache_negative_caching ⟨[], [], 3600⟩ 1000 "84826NED" "Geslacht"
    (by decide)).2.2.1 2000 (some [⟨"1100", "Mannen"⟩]) (by decide)

/-- Loading on an already-effective state changes nothing. -/
theorem dsEffective_idem (c : DatasetCacheState) (disk : Option (PyDict DsEntry)) :
    dsEffective (dsEffective c disk) disk = dsEffective c disk := by
  unfold dsEffective dsLoad
  cases hc : c.loaded <;> cases disk <;> simp [hc]

/-- A `get` against a state whose on-disk file mirrors its data reads that
data, loaded or not. -/
theorem dsGet_loaded_data (d : PyDict DsEntry) (l : Bool) (path : String) :
    (dsGet ⟨d, l⟩ (some d) path).1 = mlookup d path := by
  unfold dsGet dsEffective dsLoad
  cases l <;> simp

/-- C9: `DatasetCache.exists(path)` returns true exactly when the entry is
recorded and the artifact file exists; and when the entry is recorded but
the file has been deleted externally, `exists` returns false and prunes the
entry, so a subsequent `get(path)` (against the updated state and cache
file) returns absent. -/
theorem dataset_cache_self_heal (c : DatasetCacheState)
    (disk : Option (PyDict DsEntry)) (fs : List String) (path : String) :
    ((dsExists c disk fs path).1 = true ↔
       (mlookup (dsEffective c disk).data path).isSome ∧ fs.contains path = true)
    ∧ ((mlookup (dsEffective c disk).data path).isSome → fs.contains path = false →
        (dsExists c disk fs path).1 = false
        ∧ (dsGet (dsExists c disk fs path).2.1 (dsExists c disk fs path).2.2 path).1
            = none) := by
  constructor
  · unfold dsExists dsGet
    cases hm : mlookup (dsEffective c disk).data path with
    | none => simp [hm]
    | some e =>
        cases hf : fs.contains path with
        | true => simp [hm, hf]
        | false => simp [hm, hf]
  · intro hsome hf
    have hfm : path ∉ fs := by simpa using hf
    cases hm : mlookup (dsEffective c disk).data path with
    | none => simp [hm] at hsome
    | some e =>
        have hrem : dsRemove (dsEffective c disk) disk path
            = (⟨ddelete (dsEffective c disk).data path, (dsEffective c disk).loaded⟩,
               some (ddelete (dsEffective c disk).data path)) := by
          unfold dsRemove
          rw [dsEffective_idem]
          simp [hm]
        have hex : dsExists c disk fs path
            = (false,
               ⟨ddelete (dsEffective c disk).data path, (dsEffective c disk).loaded⟩,
               some (ddelete (dsEffective c disk).data path)) := by
          unfold dsExists dsGet
          simp [hm, hfm, hrem]
        rw [hex]
        exact ⟨rfl, by rw [dsGet_loaded_data, mlookup_ddelete_self]⟩

/-- Witness for `dataset_cache_self_heal`: a recorded entry whose file is
absent from the filesystem yields `exists = false` and a subsequent absent
`get`. -/
theorem dataset_cache_self_heal_witness :
    (dsExists ⟨[("/data/f.csv", ⟨"85313NED", 100, 0⟩)], true⟩ none [] "/data/f.csv").1
        = false
    ∧ (dsGet (dsExists ⟨[("/data/f.csv", ⟨"85313NED", 100, 0⟩)], true⟩ none []
          "/data/f.csv").2.1
        (dsExists ⟨[("/data/f.csv", ⟨"85313NED", 100, 0⟩)], true⟩ none []
          "/data/f.csv").2.2 "/data/f.csv").1 = none :=
  (dataset_cache_self_heal ⟨[("/data/f.csv", ⟨"85313NED", 100, 0⟩)], true⟩ none []
    "/data/f.csv").2 (by decide) (by decide)

/-- C1 counterexample: a fresh cache reading a disk envelope whose
`expires_at` (5) is before `now` (10) does NOT return empty contents — the
stale on-disk data is returned, because `_load_from_disk` assigns
`self._data` before the expiry check — though the cache does stay
not-loaded. -/
theorem catalog_expired_load_not_empty_counterexample :
    10 > 5
    ∧ (catData ⟨[], none, false, 24⟩
        ⟨some (.envelope ["dataset-85313NED"] (some ⟨some 5⟩)), 0⟩ 10).1 ≠ []
    ∧ (catData ⟨[], none, false, 24⟩
        ⟨some (.envelope ["dataset-85313NED"] (some ⟨some 5⟩)), 0⟩ 10).2.loaded
        = false := by decide

/-- C1 amended: when a read of `data` triggers a disk load and the on-disk
entry is expired (envelope `expires_at` in the past, or legacy file age over
the TTL), the load reports failure and the cache remains in a not-loaded
state — so a subsequent populate (the `data` setter) marks it loaded and
persists the fresh data — but the read returns the stale on-disk contents,
not empty contents. -/
theorem catalog_expired_load_keeps_stale_data (c : CatalogCacheState) (disk : CatDisk)
    (now : Nat) (hnl : c.loaded = false) :
    (∀ d exp, disk.content = some (.envelope d (some ⟨some exp⟩)) → now > exp →
       (catLoadFromDisk c disk now).2 = false
       ∧ (catData c disk now).1 = d
       ∧ (catData c disk now).2.loaded = false)
    ∧ (∀ d, disk.content = some (.legacy d) → now - disk.mtime > c.ttlHours * 3600 →
       (catLoadFromDisk c disk now).2 = false
       ∧ (catData c disk now).1 = d
       ∧ (catData c disk now).2.loaded = false)
    ∧ (∀ v, (catSetData (catData c disk now).2 v now).1.loaded = true
         ∧ (catSetData (catData c disk now).2 v now).1.data = v) := by
  refine ⟨?_, ?_, fun v => ⟨rfl, rfl⟩⟩
  · intro d exp hc hexp
    have hload : catLoadFromDisk c disk now
        = ({ c with data := d, metadata := some ⟨some exp⟩ }, false) := by
      unfold catLoadFromDisk
      rw [hc]
      simp [hexp]
    refine ⟨by rw [hload], ?_, ?_⟩ <;> simp [catData, hnl, hload]
  · intro d hc hage
    have hload : catLoadFromDisk c disk now
        = ({ c with data := d, metadata := none }, false) := by
      unfold catLoadFromDisk
      rw [hc]
      simp [hage]
    refine ⟨by rw [hload], ?_, ?_⟩ <;> simp [catData, hnl, hload]

/-- Witness for `catalog_expired_load_keeps_stale_data` on a concrete
expired envelope. -/
theorem catalog_expired_load_witness :
    (catLoadFromDisk ⟨[], none, false, 24⟩
        ⟨some (.envelope ["a"] (some ⟨some 5⟩)), 0⟩ 10).2 = false
    ∧ (catData ⟨[], none, false, 24⟩
        ⟨some (.envelope ["a"] (some ⟨some 5⟩)), 0⟩ 10).1 = ["a"]
    ∧ (catData ⟨[], none, false, 24⟩
        ⟨some (.envelope ["a"] (some ⟨some 5⟩)), 0⟩ 10).2.loaded = false :=
  (catalog_expired_load_keeps_stale_data ⟨[], none, false, 24⟩
      ⟨some (.envelope ["a"] (some ⟨some 5⟩)), 0⟩ 10 rfl).1 ["a"] 5 rfl (by decide)

/-- Every binding reachable through `dinsert` comes from the inserted key or
the original dict. -/
theorem mem_dinsert {α : Type} (m : PyDict α) (k : String) (v : α)
    (q : String × α) (h : q ∈ dinsert m k v) : q.1 = k ∨ q ∈ m := by
  induction m with
  | nil =>
      simp [dinsert] at h
      left
      rw [h]
  | cons p rest ih =>
      obtain ⟨k', v'⟩ := p
      by_cases hk : k' = k
      · simp only [dinsert, hk, if_true] at h
        rcases List.mem_cons.mp h with h1 | h1
        · left; rw [h1]
        · right; exact List.mem_cons_of_mem _ h1
      · simp only [dinsert, hk, if_false] at h
        rcases List.mem_cons.mp h with h1 | h1
        · right; exact h1 ▸ List.mem_cons_self _ _
        · rcases ih h1 with h2 | h2
          · left; exact h2
          · right; exact List.mem_cons_of_mem _ h2

/-- Keys of a dict built by repeated assignment come from the seed dict or
the assigned pairs. -/
theorem fst_mem_foldl_dinsert {α : Type} (pairs : List (String × α)) :
    ∀ (acc : PyDict α) (q : String × α),
      q ∈ pairs.foldl (fun a p => dinsert a p.1 p.2) acc →
      q ∈ acc ∨ q.1 ∈ pairs.map Prod.fst := by
  induction pairs with
  | nil => intro acc q h; left; exact h
  | cons p rest ih =>
      intro acc q h
      simp only [List.foldl_cons] at h
      rcases ih (dinsert acc p.1 p.2) q h with h1 | h1
      · rcases mem_dinsert _ _ _ _ h1 with h2 | h2
        · right; simp [h2]
        · left; exact h2
      · right; simp [h1]

/-- Rewriting column `c` leaves any other column's values unchanged. -/
theorem colValues_applyCol_ne (df : DataFrame) (c col : String) (m : Mapping)
    (h : c ≠ col) : colValues (applyCol df c m) col = colValues df col := by
  induction df with
  | nil => rfl
  | cons p rest ih =>
      obtain ⟨name, vals⟩ := p
      simp only [applyCol]
      by_cases h1 : name = c
      · have hnc : ¬name = col := by rw [h1]; exact h
        rw [if_pos h1]
        simp only [colValues, mlookup]
        rw [if_neg hnc, if_neg hnc]
        exact ih
      · rw [if_neg h1]
        by_cases h2 : name = col
        · simp [colValues, mlookup, h2]
        · simp only [colValues, mlookup]
          rw [if_neg h2, if_neg h2]
          exact ih

/-- The value-translation loop of `translate_dataframe` leaves any column
not named in the mappings dict unchanged. -/
theorem colValues_foldl_apply (ms : PyDict Mapping) :
    ∀ (df : DataFrame) (col : String), (∀ q ∈ ms, q.1 ≠ col) →
      colValues (ms.foldl
        (fun d p =>
          if (dfColumns d).contains p.1 && !p.2.isEmpty then applyCol d p.1 p.2 else d)
        df) col = colValues df col := by
  induction ms with
  | nil => intro df col _; rfl
  | cons q rest ih =>
      intro df col h
      simp only [List.foldl_cons]
      rw [ih _ col (fun q' hq' => h q' (List.mem_cons_of_mem _ hq'))]
      split
      · exact colValues_applyCol_ne _ _ _ _ (h q (List.mem_cons_self _ _))
      · rfl

/-- C4 amended: when `dimension_columns` is auto-detected (passed as
`None`) and `skip_columns` is left at its default, the `Perioden` column of
any table is never translated, whatever mappings exist for it. (When a
caller supplies `dimension_columns` explicitly, the skip-list is not
consulted — see `translate_explicit_perioden_counterexample`.) -/
theorem translate_auto_detect_skips_perioden
    (getMapping : String → Mapping) (availableDims : List String)
    (columnTitles : PyDict String) (df : DataFrame) :
    colValues
        (translateDataframe getMapping availableDims columnTitles df none false none)
        "Perioden"
      = colValues df "Perioden" := by
  unfold translateDataframe
  by_cases he : dfEmpty df = true
  · simp [he]
  · simp only [he, Bool.false_eq_true, if_false, Option.getD]
    split
    · rfl
    · apply colValues_foldl_apply
      intro q hq
      rcases fst_mem_foldl_dinsert _ _ _ hq with h1 | h1
      · simp at h1
      · rcases List.mem_map.mp h1 with ⟨p, hp, hfst⟩
        have hdims := (List.of_mem_zip hp).1
        have hpred := (List.mem_filter.mp hdims).2
        intro hcol
        have hp1 : p.1 = "Perioden" := hfst.trans hcol
        rw [hp1] at hpred
        simp at hpred

/-- C4 counterexample: with `dimension_columns=['Perioden']` supplied
explicitly (and `skip_columns` left at its default), the `Perioden` column
IS translated — the skip-list is only applied in the auto-detect branch. -/
theorem translate_explicit_perioden_counterexample :
    translateDataframe
      (fun d => if d = "Perioden" then [("2023JJ00", "2023")] else [])
      [] [] [("Perioden", [.s "2023JJ00"])] (some ["Perioden"]) false none
      = [("Perioden", [.s "2023"])] := by decide

/-- C2 (bug evaluation): with `dimension_columns=['Missing', 'Geslacht',
'RegioS']` where `'Missing'` is not a column of the table, fetch tasks are
created only for `Geslacht` and `RegioS`, but the gathered results are
paired with `zip(dimension_columns, results)` — the unfiltered list. So
`'Missing'` is paired with the Geslacht mapping, `'Geslacht'` with the
RegioS mapping (its code `"1100"` becomes `"Amsterdam"`), and `'RegioS'`
gets no mapping at all and is left untranslated. -/
theorem translate_dataframe_zip_misalignment :
    translateDataframe
      (fun d => if d = "Geslacht" then [("1100", "Mannen")]
        else if d = "RegioS" then [("1100", "Amsterdam")] else [])
      [] [] [("Geslacht", [.s "1100"]), ("RegioS", [.s "1100"])]
      (some ["Missing", "Geslacht", "RegioS"]) false none
      = [("Geslacht", [.s "Amsterdam"]), ("RegioS", [.s "1100"])] := by decide

/-- Initial race state: the key cold or expired (`e₀`), lock free, no fetch
performed, `n` callers about to run their fast-path check. -/
def sfInit (e₀ : Option (Mapping × Nat)) (n : Nat) : SfState :=
  ⟨e₀, false, 0, List.replicate n .start⟩

/-- Inductive invariant of the single-flight race: either no fetch has
happened (entry still the initial invalid one, no caller returned), or
exactly one fetch happened (entry freshly stored, lock free, every returned
caller got the fetched mapping); the lock is held iff exactly one task sits
at the remote-fetch await point. -/
def SfInv (fetched : Mapping) (now ttl : Nat) (e₀ : Option (Mapping × Nat))
    (s : SfState) : Prop :=
  ((s.fetchCount = 0 ∧ s.entry = e₀
      ∧ ∀ (j : Nat) (r : Mapping), s.tasks[j]? ≠ some (PC.done r))
   ∨ (s.fetchCount = 1 ∧ s.entry = some (fetched, now) ∧ s.lockHeld = false
      ∧ ∀ (j : Nat) (r : Mapping), s.tasks[j]? = some (PC.done r) → r = fetched))
  ∧ (s.lockHeld = false → ∀ (j : Nat), s.tasks[j]? ≠ some PC.fetching)
  ∧ (s.lockHeld = true → ∃ i : Nat, s.tasks[i]? = some PC.fetching
       ∧ ∀ (j : Nat), s.tasks[j]? = some PC.fetching → j = i)

/-- Reading any position of `l.set i v`. -/
theorem getElem?_set_cases {α : Type} (l : List α) (i : Nat) (v : α) (j : Nat) (x : α)
    (h : (l.set i v)[j]? = some x) :
    (j = i ∧ x = v) ∨ (j ≠ i ∧ l[j]? = some x) := by
  by_cases hij : j = i
  · subst hij
    rw [List.getElem?_set_self'] at h
    cases hl : l[j]? with
    | none => rw [hl] at h; simp at h
    | some y => rw [hl] at h; simp at h; exact Or.inl ⟨rfl, h.symm⟩
  · exact Or.inr ⟨hij, by rwa [List.getElem?_set_ne (fun he => hij he.symm)] at h⟩

/-- Setting an in-range position then reading it back. -/
theorem getElem?_set_self_of_some {α : Type} (l : List α) (i : Nat) (v old : α)
    (h : l[i]? = some old) : (l.set i v)[i]? = some v := by
  rw [List.getElem?_set_self', h]
  rfl

/-- A valid-entry read in the stored phase: some task returns the cached
(fetched) mapping; the invariant is preserved. -/
theorem SfInv_set_done_stored (fetched : Mapping) (now ttl : Nat)
    (e₀ : Option (Mapping × Nat)) (s : SfState) (i : Nat)
    (hc : s.fetchCount = 1) (he : s.entry = some (fetched, now))
    (hl : s.lockHeld = false)
    (hd : ∀ (j : Nat) (r : Mapping), s.tasks[j]? = some (PC.done r) → r = fetched)
    (hnofetch : s.lockHeld = false → ∀ (j : Nat), s.tasks[j]? ≠ some PC.fetching) :
    SfInv fetched now ttl e₀ { s with tasks := s.tasks.set i (PC.done fetched) } := by
  unfold SfInv
  refine ⟨Or.inr ⟨hc, he, hl, ?_⟩, ?_, ?_⟩
  · intro j r hj
    rcases getElem?_set_cases _ _ _ _ _ hj with ⟨_, heq⟩ | ⟨_, hold⟩
    · cases heq; rfl
    · exact hd j r hold
  · intro _ j hj
    rcases getElem?_set_cases _ _ _ _ _ hj with ⟨_, heq⟩ | ⟨_, hold⟩
    · cases heq
    · exact hnofetch hl j hold
  · intro hlt
    rw [show ({ s with tasks := s.tasks.set i (PC.done fetched) } : SfState).lockHeld
          = s.lockHeld from rfl, hl] at hlt
    cases hlt

/-- Every scheduler step preserves the single-flight invariant. -/
theorem sfStep_inv (fetched : Mapping) (now ttl : Nat) (e₀ : Option (Mapping × Nat))
    (httl : 0 < ttl) (h₀ : entryValid now ttl e₀ = false)
    (s : SfState) (i : Nat) (hs : SfInv fetched now ttl e₀ s) :
    SfInv fetched now ttl e₀ (sfStep fetched now ttl s i) := by
  obtain ⟨hphase, hnofetch, hunique⟩ := hs
  cases hget : s.tasks[i]? with
  | none =>
      have hstep : sfStep fetched now ttl s i = s := by
        simp [sfStep, hget]
      rw [hstep]
      exact ⟨hphase, hnofetch, hunique⟩
  | some pc =>
    cases pc with
    | start =>
        by_cases hv : entryValid now ttl s.entry = true
        · have hstep : sfStep fetched now ttl s i
              = { s with tasks := s.tasks.set i (PC.done (entryVal s.entry)) } := by
            simp [sfStep, hget, hv]
          rcases hphase with ⟨hc, he, hnd⟩ | ⟨hc, he, hl, hd⟩
          · rw [he, h₀] at hv; simp at hv
          · have hval : entryVal s.entry = fetched := by rw [he]; rfl
            rw [hstep, hval]
            exact SfInv_set_done_stored fetched now ttl e₀ s i hc he hl hd hnofetch
        · have hstep : sfStep fetched now ttl s i
              = { s with tasks := s.tasks.set i PC.waitLock } := by
            simp [sfStep, hget, hv]
          rcases hphase with ⟨hc, he, hnd⟩ | ⟨hc, he, hl, hd⟩
          · rw [hstep]
            unfold SfInv
            refine ⟨Or.inl ⟨hc, he, ?_⟩, ?_, ?_⟩
            · intro j r hj
              rcases getElem?_set_cases _ _ _ _ _ hj with ⟨_, heq⟩ | ⟨_, hold⟩
              · cases heq
              · exact hnd j r hold
            · intro hlf j hj
              rcases getElem?_set_cases _ _ _ _ _ hj with ⟨_, heq⟩ | ⟨_, hold⟩
              · cases heq
              · exact hnofetch hlf j hold
            · intro hlt
              obtain ⟨i0, hi0, hi0u⟩ := hunique hlt
              have hii0 : i ≠ i0 := by
                intro hii
                rw [hii, hi0] at hget
                cases hget
              refine ⟨i0, ?_, ?_⟩
              · rwa [List.getElem?_set_ne (fun hh => hii0 hh)]
              · intro j hj
                rcases getElem?_set_cases _ _ _ _ _ hj with ⟨_, heq⟩ | ⟨_, hold⟩
                · cases heq
                · exact hi0u j hold
          · exfalso
            rw [he] at hv
            simp [entryValid, Nat.sub_self] at hv
            omega
    | waitLock =>
        by_cases hl : s.lockHeld = true
        · have hstep : sfStep fetched now ttl s i = s := by
            simp [sfStep, hget, hl]
          rw [hstep]
          exact ⟨hphase, hnofetch, hunique⟩
        · have hlf : s.lockHeld = false := by simpa using hl
          by_cases hv : entryValid now ttl s.entry = true
          · have hstep : sfStep fetched now ttl s i
                = { s with tasks := s.tasks.set i (PC.done (entryVal s.entry)) } := by
              simp [sfStep, hget, hlf, hv]
            rcases hphase with ⟨hc, he, hnd⟩ | ⟨hc, he, hl2, hd⟩
            · rw [he, h₀] at hv; simp at hv
            · have hval : entryVal s.entry = fetched := by rw [he]; rfl
              rw [hstep, hval]
              exact SfInv_set_done_stored fetched now ttl e₀ s i hc he hl2 hd hnofetch
          · have hstep : sfStep fetched now ttl s i
                = { s with lockHeld := true, tasks := s.tasks.set i PC.fetching } := by
              simp [sfStep, hget, hlf, hv]
            rcases hphase with ⟨hc, he, hnd⟩ | ⟨hc, he, hl2, hd⟩
            · rw [hstep]
              unfold SfInv
              refine ⟨Or.inl ⟨hc, he, ?_⟩, ?_, ?_⟩
              · intro j r hj
                rcases getElem?_set_cases _ _ _ _ _ hj with ⟨_, heq⟩ | ⟨_, hold⟩
                · cases heq
                · exact hnd j r hold
              · intro hlf2
                cases hlf2
              · intro _
                refine ⟨i, getElem?_set_self_of_some _ _ _ _ hget, ?_⟩
                intro j hj
                rcases getElem?_set_cases _ _ _ _ _ hj with ⟨hji, _⟩ | ⟨_, hold⟩
                · exact hji
                · exact absurd hold (hnofetch hlf j)
            · exfalso
              rw [he] at hv
              simp [entryValid, Nat.sub_self] at hv
              omega
    | fetching =>
        have hlt : s.lockHeld = true := by
          by_cases hl : s.lockHeld = true
          · exact hl
          · exact absurd hget (hnofetch (by simpa using hl) i)
        have hstep : sfStep fetched now ttl s i
            = { s with entry := some (fetched, now), lockHeld := false,
                       fetchCount := s.fetchCount + 1,
                       tasks := s.tasks.set i (PC.done fetched) } := by
          simp [sfStep, hget]
        rcases hphase with ⟨hc, he, hnd⟩ | ⟨hc, he, hl2, hd⟩
        · obtain ⟨i0, hi0, hi0u⟩ := hunique hlt
          have hii0 : i = i0 := hi0u i hget
          rw [hstep]
          unfold SfInv
          refine ⟨Or.inr ⟨by rw [hc], rfl, rfl, ?_⟩, ?_, ?_⟩
          · intro j r hj
            rcases getElem?_set_cases _ _ _ _ _ hj with ⟨_, heq⟩ | ⟨_, hold⟩
            · cases heq; rfl
            · exact absurd hold (hnd j r)
          · intro _ j hj
            rcases getElem?_set_cases _ _ _ _ _ hj with ⟨_, heq⟩ | ⟨hji, hold⟩
            · cases heq
            · exact hji (hii0 ▸ hi0u j hold)
          · intro hlf2
            cases hlf2
        · rw [hl2] at hlt; cases hlt
    | done r =>
        have hstep : sfStep fetched now ttl s i = s := by
          simp [sfStep, hget]
        rw [hstep]
        exact ⟨hphase, hnofetch, hunique⟩



/-- The invariant holds after any schedule. -/
theorem sfRun_inv (fetched : Mapping) (now ttl : Nat) (e₀ : Option (Mapping × Nat))
    (httl : 0 < ttl) (h₀ : entryValid now ttl e₀ = false) (sched : List Nat) :
    ∀ s, SfInv fetched now ttl e₀ s →
      SfInv fetched now ttl e₀ (sfRun fetched now ttl s sched) := by
  induction sched with
  | nil => intro s hs; exact hs
  | cons i rest ih =>
      intro s hs
      exact ih _ (sfStep_inv fetched now ttl e₀ httl h₀ s i hs)

/-- A step never changes the number of tasks. -/
theorem sfStep_tasks_length (fetched : Mapping) (now ttl : Nat) (s : SfState) (i : Nat) :
    (sfStep fetched now ttl s i).tasks.length = s.tasks.length := by
  cases hget : s.tasks[i]? with
  | none => simp [sfStep, hget]
  | some pc =>
      cases pc with
      | start =>
          simp only [sfStep, hget]
          split <;> simp [List.length_set]
      | waitLock =>
          simp only [sfStep, hget]
          split
          · rfl
          · split <;> simp [List.length_set]
      | fetching => simp [sfStep, hget, List.length_set]
      | done r => simp [sfStep, hget]

/-- A run never changes the number of tasks. -/
theorem sfRun_tasks_length (fetched : Mapping) (now ttl : Nat) (sched : List Nat) :
    ∀ s, (sfRun fetched now ttl s sched).tasks.length = s.tasks.length := by
  induction sched with
  | nil => intro s; rfl
  | cons i rest ih =>
      intro s
      rw [sfRun, List.foldl_cons, ← sfRun]
      rw [ih, sfStep_tasks_length]

/-- The initial state satisfies the invariant. -/
theorem sfInit_inv (fetched : Mapping) (now ttl : Nat) (e₀ : Option (Mapping × Nat))
    (n : Nat) : SfInv fetched now ttl e₀ (sfInit e₀ n) := by
  unfold SfInv
  refine ⟨Or.inl ⟨rfl, rfl, ?_⟩, ?_, ?_⟩
  · intro j r h
    have := List.eq_of_mem_replicate (List.get?_mem (by simpa using h))
    cases this
  · intro _ j h
    have := List.eq_of_mem_replicate (List.get?_mem (by simpa using h))
    cases this
  · intro h
    cases h

/-- C5: for a cold or expired key (initial entry invalid) and positive TTL,
whatever interleaving the event loop chooses for `n ≥ 1` concurrent
`get_mapping` callers of that key, once all callers have returned exactly
one remote fetch was performed and every caller returned the result of that
single fetch. -/
theorem get_mapping_single_flight (fetched : Mapping) (now ttl n : Nat)
    (e₀ : Option (Mapping × Nat)) (sched : List Nat)
    (httl : 0 < ttl) (h₀ : entryValid now ttl e₀ = false) (hn : 0 < n)
    (hdone : ∀ pc ∈ (sfRun fetched now ttl (sfInit e₀ n) sched).tasks,
        PC.isDone pc = true) :
    (sfRun fetched now ttl (sfInit e₀ n) sched).fetchCount = 1
    ∧ ∀ pc ∈ (sfRun fetched now ttl (sfInit e₀ n) sched).tasks,
        pc = PC.done fetched := by
  have hinv := sfRun_inv fetched now ttl e₀ httl h₀ sched (sfInit e₀ n)
    (sfInit_inv fetched now ttl e₀ n)
  set sF := sfRun fetched now ttl (sfInit e₀ n) sched with hsF
  have hlen : sF.tasks.length = n := by
    rw [hsF, sfRun_tasks_length]
    simp [sfInit]
  obtain ⟨pc0, hpc0⟩ : ∃ pc, pc ∈ sF.tasks := by
    cases h : sF.tasks with
    | nil => rw [h] at hlen; simp at hlen; omega
    | cons a l => exact ⟨a, h ▸ List.mem_cons_self a l⟩
  have hpc0d := hdone pc0 hpc0
  obtain ⟨r0, hr0⟩ : ∃ r, pc0 = PC.done r := by
    cases pc0 with
    | done r => exact ⟨r, rfl⟩
    | start => simp [PC.isDone] at hpc0d
    | waitLock => simp [PC.isDone] at hpc0d
    | fetching => simp [PC.isDone] at hpc0d
  obtain ⟨hphase, hnf, hu⟩ := hinv
  rcases hphase with ⟨hc, he, hnd⟩ | ⟨hc, he, hl, hd⟩
  · obtain ⟨j, hj⟩ := List.mem_iff_get?.mp hpc0
    rw [hr0] at hj
    exact absurd (show sF.tasks[j]? = some (PC.done r0) by simpa using hj) (hnd j r0)
  · refine ⟨hc, ?_⟩
    intro pc hpc
    have hd1 := hdone pc hpc
    obtain ⟨r, hr⟩ : ∃ r, pc = PC.done r := by
      cases pc with
      | done r => exact ⟨r, rfl⟩
      | start => simp [PC.isDone] at hd1
      | waitLock => simp [PC.isDone] at hd1
      | fetching => simp [PC.isDone] at hd1
    obtain ⟨j, hj⟩ := List.mem_iff_get?.mp hpc
    rw [hr] at hj ⊢
    rw [hd j r (by simpa using hj)]

/-- Witness for `get_mapping_single_flight`: three concurrent callers under
a concrete interleaving (caller 0 fetches while 1 waits on the lock and 1, 2
then hit the double-check / fast path). -/
theorem get_mapping_single_flight_witness :
    (sfRun [("1100", "Mannen")] 100 3600 (sfInit none 3)
        [0, 0, 1, 1, 0, 1, 2]).fetchCount = 1
    ∧ ∀ pc ∈ (sfRun [("1100", "Mannen")] 100 3600 (sfInit none 3)
        [0, 0, 1, 1, 0, 1, 2]).tasks, pc = PC.done [("1100", "Mannen")] :=
  get_mapping_single_flight [("1100", "Mannen")] 100 3600 3 none [0, 0, 1, 1, 0, 1, 2]
    (by decide) (by decide) (by decide) (by decide)

end NlOpendata
